import Mathlib

/-!
Shallow embedding of the media-hub scan/worker/stream core.

The definitions below are translated from the Go source:
* `internal/scan` (Scanner.kindForExt, Scanner.ScanLibrary),
* `internal/worker/thumb.go` (ThumbWorker.processJobs, generateVideoThumb,
  getVideoDuration),
* `internal/stream` (Streamer.StreamByID),
* the SQL schema (tables `library`, `media_item`, `scan_run`, `job`).

Modelling conventions:
* Timestamps are `Nat`.  Each distinct `time.Now()` call site of the source is
  a distinct explicit parameter: `ScanTimes.startedAt` is the `time.Now()` of
  ScanLibrary line 49, `ScanTimes.reconcileAt` the one inside the
  reconciliation UPDATE (line 133), `ScanTimes.finishedAt` the one of the
  scan_run finish (line 138), and `WalkEntry.jobNow` the database `NOW()` used
  by the job inserts for that file.
* The PostgreSQL store is an explicit `Store` value; SQL statements become
  pure functions on it.  Serial primary keys are modelled with `nextItemId`,
  `nextJobId`, `nextRunId` counters.
* The filesystem walk (`filepath.WalkDir`) is modelled by a function from a
  root to the list of `WalkEntry` values handed to the walk callback, in walk
  order; per-entry walk errors and `d.Info()` errors are Boolean fields of the
  entry.  `filepath.Clean` is pure path canonicalization and the model takes
  root strings in already-cleaned form.
* Fallible external effects (file open, external tool invocations) enter as
  explicit outcome parameters.
-/

namespace MediaHub

/-- Coarse media kind, the `media_kind` enum of the schema. -/
inductive Kind where
  | video
  | audio
  | photo
  | other
deriving DecidableEq, Repr, BEq

/-- Kind of a queued job row (`job.kind`): the scanner inserts only these two. -/
inductive JobKind where
  | thumb
  | metadata
deriving DecidableEq, Repr, BEq

/-- The consumed configuration (internal/config.Config).  The three extension
sets are Go maps used only for membership, modelled as lists. -/
structure Config where
  databaseURL : String
  jwtSecret : String
  thumbDir : String
  indexOther : Bool
  extPhoto : List String
  extAudio : List String
  extVideo : List String
deriving DecidableEq, Repr

/-- A row of the `library` table (only the columns the core reads). -/
structure Library where
  id : Nat
  roots : List String
deriving DecidableEq, Repr

/-- A row of the `media_item` table (the columns the core reads or writes). -/
structure MediaItem where
  id : Nat
  libraryId : Nat
  path : String
  relPath : String
  kind : Kind
  present : Bool
  missingSince : Option Nat
  sizeBytes : Int
  mtime : Nat
  lastSeenAt : Nat
  thumbPath : Option String
  updatedAt : Nat
deriving DecidableEq, Repr

/-- A row of the `job` table. -/
structure Job where
  id : Nat
  kind : JobKind
  itemId : Nat
  runAt : Nat
  attempts : Nat
  lockedAt : Option Nat
  lastError : Option String
deriving DecidableEq, Repr

/-- A row of the `scan_run` table. -/
structure ScanRun where
  id : Nat
  libraryId : Nat
  startedAt : Nat
  finishedAt : Option Nat
deriving DecidableEq, Repr

/-- The mutable relational state the core touches. -/
structure Store where
  libraries : List Library
  items : List MediaItem
  jobs : List Job
  runs : List ScanRun
  nextItemId : Nat
  nextJobId : Nat
  nextRunId : Nat
deriving DecidableEq, Repr

/-- One invocation of the `filepath.WalkDir` callback: the path handed in,
whether the entry is a directory, whether the callback received a walk error
(`werr`), whether `d.Info()` fails, and the stat data on success.  `jobNow` is
the database `NOW()` at the job inserts for this entry. -/
structure WalkEntry where
  path : String
  isDir : Bool
  walkErr : Bool
  infoErr : Bool
  size : Int
  mtime : Nat
  jobNow : Nat
deriving DecidableEq, Repr

/-- The clock readings taken during one ScanLibrary call (see file comment). -/
structure ScanTimes where
  startedAt : Nat
  reconcileAt : Nat
  finishedAt : Nat
deriving DecidableEq, Repr

/-- ASCII lower-casing of one character (the extensions and configured sets
this system compares are ASCII; Unicode case folding is out of the model). -/
def lowerChar (c : Char) : Char :=
  if 'A' ≤ c ∧ c ≤ 'Z' then Char.ofNat (c.toNat + 32) else c

/-- Models strings.ToLower on the ASCII strings the scanner compares. -/
def lowerStr (s : String) : String := String.mk (s.data.map lowerChar)

/-- Character-list version of strings.HasPrefix. -/
def listStarts : List Char → List Char → Bool
  | _, [] => true
  | [], _ :: _ => false
  | a :: as, b :: bs => a == b && listStarts as bs

/-- Models strings.HasPrefix. -/
def strStarts (s p : String) : Bool := listStarts s.data p.data

/-- Models strings.TrimPrefix: drop `p` from the front of `s` when it is
there, otherwise return `s` unchanged. -/
def trimLead (s p : String) : String :=
  if strStarts s p then String.mk (s.data.drop p.data.length) else s

/-- Helper for `pathExt`: scans the reversed character list of the path,
carrying the already-scanned suffix in original order. -/
def extFromRev : List Char → List Char → String
  | [], _ => ""
  | c :: rest, acc =>
    if c = '/' then ""
    else if c = '.' then String.mk (c :: acc)
    else extFromRev rest (c :: acc)

/-- Models filepath.Ext: the suffix of the final path element starting at its
final dot, or the empty string when the final element has no dot. -/
def pathExt (p : String) : String :=
  extFromRev p.data.reverse []

/-- Models Scanner.kindForExt (scan.go lines 25-40).  The Go function returns
`(kind, ok)`; the model returns `some kind` respectively `none`. -/
def kindForExt (cfg : Config) (ext : String) : Option Kind :=
  let e := trimLead (lowerStr ext) "."
  if cfg.extPhoto.contains e then some Kind.photo
  else if cfg.extAudio.contains e then some Kind.audio
  else if cfg.extVideo.contains e then some Kind.video
  else if cfg.indexOther then some Kind.other
  else none

/-- A fresh job row as inserted by the scanner: attempts 0 (explicit on the
insert path, the column default on the update path), unlocked, no error. -/
def mkJob (jid : Nat) (k : JobKind) (itemId runAt : Nat) : Job :=
  { id := jid, kind := k, itemId := itemId, runAt := runAt,
    attempts := 0, lockedAt := none, lastError := none }

/-- Models the media_item upsert (scan.go lines 89-108) followed by the job
scheduling (lines 110-119).  `on conflict (path) do update` fires when a row
with the same path exists, and `xmax <> 0` reports exactly that case as
`is_update`.  The job inserts carry `on conflict do nothing`, but the `job`
table of the schema has no unique constraint other than its serial primary
key, so the conflict clause never suppresses a row: every enqueue appends. -/
def upsertAndSchedule (st : Store) (libID : Nat) (e : WalkEntry) (kind : Kind)
    (rel : String) (startedAt : Nat) : Store :=
  match st.items.find? (fun it => it.path == e.path) with
  | some existing =>
    -- update path: library_id, rel_path, kind, present=true, missing_since=null,
    -- last_seen_at, updated_at, size_bytes, mtime are overwritten
    let items' := st.items.map (fun it =>
      if it.path == e.path then
        { it with libraryId := libID, relPath := rel, kind := kind,
                  present := true, missingSince := none,
                  lastSeenAt := startedAt, updatedAt := startedAt,
                  sizeBytes := e.size, mtime := e.mtime }
      else it)
    -- existing item that was updated: enqueue metadata and thumb (lines 115-119)
    { st with items := items',
              jobs := st.jobs ++
                [mkJob st.nextJobId JobKind.metadata existing.id e.jobNow,
                 mkJob (st.nextJobId + 1) JobKind.thumb existing.id e.jobNow],
              nextJobId := st.nextJobId + 2 }
  | none =>
    let newItem : MediaItem :=
      { id := st.nextItemId, libraryId := libID, path := e.path, relPath := rel,
        kind := kind, present := true, missingSince := none,
        sizeBytes := e.size, mtime := e.mtime, lastSeenAt := startedAt,
        thumbPath := none, updatedAt := startedAt }
    let st1 := { st with items := st.items ++ [newItem],
                         nextItemId := st.nextItemId + 1 }
    -- new item: create a thumb job for video and photo kinds only (lines 112-114)
    if kind = Kind.video ∨ kind = Kind.photo then
      { st1 with jobs := st1.jobs ++ [mkJob st1.nextJobId JobKind.thumb newItem.id e.jobNow],
                 nextJobId := st1.nextJobId + 1 }
    else st1

/-- Models one invocation of the walk callback `walkFn` (scan.go lines 59-121):
walk errors, directories, unclassified extensions and stat failures are all
skipped; otherwise the relative path is computed and the upsert runs. -/
def walkStep (cfg : Config) (st : Store) (libID : Nat) (root : String)
    (startedAt : Nat) (e : WalkEntry) : Store :=
  if e.walkErr then st
  else if e.isDir then st
  else
    match kindForExt cfg (pathExt e.path) with
    | none => st
    | some kind =>
      if e.infoErr then st
      else
        let rel :=
          if strStarts e.path root then trimLead (trimLead e.path root) "/"
          else e.path
        upsertAndSchedule st libID e kind rel startedAt

/-- Walks one root: folds `walkStep` over the entries `filepath.WalkDir`
produces for it. -/
def walkRoot (cfg : Config) (fs : String → List WalkEntry) (st : Store)
    (libID startedAt : Nat) (root : String) : Store :=
  (fs root).foldl (fun a e => walkStep cfg a libID root startedAt e) st

/-- Walks all roots of the library in order (scan.go lines 57-124). -/
def walkPhase (cfg : Config) (fs : String → List WalkEntry) (st : Store)
    (libID startedAt : Nat) (roots : List String) : Store :=
  roots.foldl (fun acc root => walkRoot cfg fs acc libID startedAt root) st

/-- The per-row effect of the reconciliation UPDATE (scan.go lines 127-133):
rows of this library still marked present and last seen before the run start
are flipped absent; missing_since is filled only when previously null. -/
def reconcileItem (libID now startedAt : Nat) (it : MediaItem) : MediaItem :=
  if it.libraryId = libID ∧ it.lastSeenAt < startedAt ∧ it.present = true then
    { it with present := false,
              missingSince := some (it.missingSince.getD now),
              updatedAt := now }
  else it

/-- The whole reconciliation UPDATE applied to the item table. -/
def reconcile (libID now startedAt : Nat) (items : List MediaItem) : List MediaItem :=
  items.map (reconcileItem libID now startedAt)

/-- Insert the scan_run row (scan.go line 52). -/
def recordRun (st : Store) (libID startedAt : Nat) : Store :=
  let run : ScanRun :=
    { id := st.nextRunId, libraryId := libID,
      startedAt := startedAt, finishedAt := none }
  { st with runs := st.runs ++ [run], nextRunId := st.nextRunId + 1 }

/-- Set finished_at on the scan_run row (scan.go line 138). -/
def finishRun (st : Store) (runId finishedAt : Nat) : Store :=
  { st with runs := st.runs.map (fun r =>
      if r.id = runId then { r with finishedAt := some finishedAt } else r) }

/-- The body of ScanLibrary once the library row was found: record the run,
walk every root, reconcile, and stamp the run finished. -/
def scanCore (cfg : Config) (fs : String → List WalkEntry) (t : ScanTimes)
    (st : Store) (libID : Nat) (roots : List String) : Store :=
  let st1 := recordRun st libID t.startedAt
  let st2 := walkPhase cfg fs st1 libID t.startedAt roots
  let st3 := { st2 with items := reconcile libID t.reconcileAt t.startedAt st2.items }
  finishRun st3 st.nextRunId t.finishedAt

/-- Models Scanner.ScanLibrary (scan.go lines 42-140).  The library lookup is
the only failure surfaced to the caller (the Go error wraps the driver error);
store operations themselves are modelled as always succeeding, and every
per-file failure is skipped inside `walkStep`. -/
def scanLibrary (cfg : Config) (fs : String → List WalkEntry) (t : ScanTimes)
    (st : Store) (libraryID : Nat) : Except String Store :=
  match st.libraries.find? (fun l => l.id == libraryID) with
  | none => Except.error "library not found"
  | some lib => Except.ok (scanCore cfg fs t st libraryID lib.roots)

/-- ScanLibrary as a total state transformer: the resulting store on success,
the input store unchanged on failure. -/
def runScan (cfg : Config) (fs : String → List WalkEntry) (t : ScanTimes)
    (st : Store) (libraryID : Nat) : Store :=
  match scanLibrary cfg fs t st libraryID with
  | Except.ok s => s
  | Except.error _ => st

/-- Outcome of `os.Open` followed by `f.Stat()` on a path, as observed by the
streaming gateway: the open itself can fail, the stat can fail, or both
succeed yielding the file size and modification time. -/
inductive OpenResult where
  | openErr
  | statErr
  | okFile (size : Int) (mtime : Nat)
deriving DecidableEq, Repr

/-- What StreamByID writes to the HTTP response, abstracted: a 404, a 500 on
stat failure, or the ranged file serve (http.ServeContent) with the base name,
size and mtime it passes along. -/
inductive StreamOutcome where
  | notFound
  | serverError
  | served (name : String) (size : Int) (mtime : Nat)
deriving DecidableEq, Repr

/-- Models filepath.Base for the slash-separated absolute paths the catalog
stores: the last path component (the paths the scanner stores never end in a
separator). -/
def baseName (p : String) : String :=
  String.mk ((p.data.reverse.takeWhile (fun c => !(c == '/'))).reverse)

/-- The single-row UPDATE StreamByID issues when the open fails (stream.go
lines 37-40): present=false, missing_since=coalesce(missing_since, now),
updated_at=now. -/
def markMissing (now : Nat) (it : MediaItem) : MediaItem :=
  { it with present := false,
            missingSince := some (it.missingSince.getD now),
            updatedAt := now }

/-- Models Streamer.StreamByID (stream.go lines 21-58).  The catalog lookup
failing (no row), the row being absent, the open failing, and the stat failing
each take their branch; `fs` gives the open/stat outcome per path. -/
def streamByID (fs : String → OpenResult) (st : Store) (now : Nat) (id : Nat) :
    StreamOutcome × Store :=
  match st.items.find? (fun it => it.id == id) with
  | none => (StreamOutcome.notFound, st)
  | some it =>
    if it.present = false then (StreamOutcome.notFound, st)
    else
      match fs it.path with
      | OpenResult.openErr =>
        let items' := st.items.map (fun x =>
          if x.id == id then markMissing now x else x)
        (StreamOutcome.notFound, { st with items := items' })
      | OpenResult.statErr => (StreamOutcome.serverError, st)
      | OpenResult.okFile size mtime =>
        (StreamOutcome.served (baseName it.path) size mtime, st)

/-- thumb.go line 18: maximum retry attempts before giving up. -/
def maxThumbAttempts : Nat := 5

/-- The thumbnail destination path the worker builds (thumb.go line 93):
filepath.Join(cfg.ThumbDir, itemID.jpg). -/
def thumbPathFor (cfg : Config) (itemId : Nat) : String :=
  cfg.thumbDir ++ "/" ++ toString itemId ++ ".jpg"

/-- Models the processing of one job inside ThumbWorker.processJobs (thumb.go
lines 53-119): the job is selected only if it is a `thumb` job with
locked_at IS NULL (the per-cycle SELECT), then locked, then the thumbnail
generation runs — its result enters as the `outcome` parameter (`none` for
success, `some msg` for the error string).  On success the item's thumb_path
is set and the job row deleted; on failure the attempt count read at selection
time plus one is compared with the ceiling: at the ceiling the job is deleted,
otherwise the lock is released, attempts incremented and the error stored. -/
def processJob (cfg : Config) (st : Store) (jobId : Nat)
    (outcome : Option String) (now : Nat) : Store :=
  match st.jobs.find? (fun q =>
      decide (q.id = jobId ∧ q.kind = JobKind.thumb ∧ q.lockedAt = none)) with
  | none => st
  | some j =>
    let locked := st.jobs.map (fun q =>
      if q.id == jobId then { q with lockedAt := some now } else q)
    match outcome with
    | some errMsg =>
      if maxThumbAttempts ≤ j.attempts + 1 then
        { st with jobs := locked.filter (fun q => !(q.id == jobId)) }
      else
        { st with jobs := locked.map (fun q =>
            if q.id == jobId then
              { q with lockedAt := none, attempts := q.attempts + 1,
                       lastError := some errMsg }
            else q) }
    | none =>
      { st with
          items := st.items.map (fun it =>
            if it.id == j.itemId then
              { it with thumbPath := some (thumbPathFor cfg j.itemId) }
            else it),
          jobs := locked.filter (fun q => !(q.id == jobId)) }

/-- Iterate `processJob` with a failing generation `n` times on the same job. -/
def failTimes (cfg : Config) (st : Store) (jobId : Nat) (err : String)
    (now : Nat) : Nat → Store
  | 0 => st
  | n + 1 => processJob cfg (failTimes cfg st jobId err now n) jobId (some err) now

/-- Outcome of the ffprobe duration query (thumb.go lines 185-203): the
subprocess can fail, its output can fail to parse, or it yields a duration.
Floating point durations are modelled over ℚ. -/
inductive ProbeResult where
  | execErr
  | parseErr
  | value (d : ℚ)

/-- Models ThumbWorker.getVideoDuration: 30 on either failure, the probed
value otherwise. -/
def getVideoDuration (pr : ProbeResult) : ℚ :=
  match pr with
  | ProbeResult.execErr => 30
  | ProbeResult.parseErr => 30
  | ProbeResult.value d => d

/-- Models the seek-offset computation of ThumbWorker.generateVideoThumb
(thumb.go lines 150-163): 10% of duration, raised to at least 5, capped at
120, and falling back to 25% of duration if the result still exceeds the
duration. -/
def videoSeekTime (duration : ℚ) : ℚ :=
  let s1 := duration * (10 / 100 : ℚ)
  let s2 := if s1 < 5 then (5 : ℚ) else s1
  let s3 := if s2 > 120 then (120 : ℚ) else s2
  if s3 > duration then duration * (25 / 100 : ℚ) else s3

/-- The seek offset as the specification words it: clamp(0.10*d, 5, 120)
unless that clamped value exceeds d, in which case 0.25*d.  Written from the
spec sentence, to be compared with `videoSeekTime`. -/
def seekTimeSpec (d : ℚ) : ℚ :=
  let c := min 120 (max 5 (d * (10 / 100 : ℚ)))
  if c > d then d * (25 / 100 : ℚ) else c

/-- One operation against the shared store, for stating cross-operation
invariants: a scan run, a stream request, or one worker job processing. -/
inductive Op where
  | scan (cfg : Config) (fs : String → List WalkEntry) (t : ScanTimes) (libID : Nat)
  | stream (fs : String → OpenResult) (now : Nat) (id : Nat)
  | work (cfg : Config) (jobId : Nat) (outcome : Option String) (now : Nat)

/-- Apply one operation to the store (a failed scan leaves it unchanged). -/
def applyOp (st : Store) : Op → Store
  | Op.scan cfg fs t libID => runScan cfg fs t st libID
  | Op.stream fs now id => (streamByID fs st now id).2
  | Op.work cfg jobId outcome now => processJob cfg st jobId outcome now

/-- The first-miss invariant on a batch of item rows: an absent item always
carries a missing_since timestamp. -/
def itemsInv (l : List MediaItem) : Prop :=
  ∀ it ∈ l, it.present = false → it.missingSince ≠ none

/-- The first-miss invariant on the store. -/
def storeInv (st : Store) : Prop := itemsInv st.items

instance decItemsInv (l : List MediaItem) : Decidable (itemsInv l) := by
  unfold itemsInv; infer_instance

instance decStoreInv (st : Store) : Decidable (storeInv st) := by
  unfold storeInv; infer_instance

/-! Concrete scenario data, used by the counterexamples and witnesses. -/

/-- A small configuration: jpg photos, mp3 audio, mp4 video, strangers not
indexed. -/
def cfgD : Config :=
  { databaseURL := "postgres://db", jwtSecret := "s", thumbDir := "/data/thumbs",
    indexOther := false, extPhoto := ["jpg"], extAudio := ["mp3"],
    extVideo := ["mp4"] }

/-- A configuration whose three extension sets overlap on "x" and which
indexes unknown extensions. -/
def cfgOverlap : Config :=
  { databaseURL := "", jwtSecret := "", thumbDir := "/t",
    indexOther := true, extPhoto := ["x"], extAudio := ["x"],
    extVideo := ["x"] }

/-- A photo file under root /m. -/
def entryA : WalkEntry :=
  { path := "/m/a.jpg", isDir := false, walkErr := false, infoErr := false,
    size := 100, mtime := 50, jobNow := 105 }

/-- An audio file under root /m. -/
def entryB : WalkEntry :=
  { path := "/m/b.mp3", isDir := false, walkErr := false, infoErr := false,
    size := 200, mtime := 60, jobNow := 106 }

/-- Walk results: root /m holds the photo and the audio file. -/
def fsBoth : String → List WalkEntry :=
  fun r => if r = "/m" then [entryA, entryB] else []

/-- Walk results: every root is empty (all files deleted). -/
def fsNone : String → List WalkEntry := fun _ => []

/-- Initial store: one library (id 1, root /m) and nothing else. -/
def st0 : Store :=
  { libraries := [{ id := 1, roots := ["/m"] }], items := [], jobs := [],
    runs := [], nextItemId := 1, nextJobId := 1, nextRunId := 1 }

/-- Clock of the first scan run. -/
def t1 : ScanTimes := { startedAt := 100, reconcileAt := 110, finishedAt := 111 }

/-- Clock of the second scan run. -/
def t2 : ScanTimes := { startedAt := 200, reconcileAt := 210, finishedAt := 211 }

/-- Store after scanning library 1 once over `fsBoth`. -/
def stR1 : Store := runScan cfgD fsBoth t1 st0 1

/-- The photo item as it sits in `stR1` (the row the first scan inserted). -/
def itA : MediaItem :=
  { id := 1, libraryId := 1, path := "/m/a.jpg", relPath := "a.jpg",
    kind := Kind.photo, present := true, missingSince := none,
    sizeBytes := 100, mtime := 50, lastSeenAt := 100, thumbPath := none,
    updatedAt := 100 }

/-- Store after scanning library 1 a second time over the unchanged
filesystem. -/
def stR2 : Store := runScan cfgD fsBoth t2 stR1 1

/-- Store after the second scan runs over an emptied filesystem instead. -/
def stM2 : Store := runScan cfgD fsNone t2 stR1 1

/-- A stale item of library 1: present, last seen at 5, never missing. -/
def itC : MediaItem :=
  { id := 5, libraryId := 1, path := "/old/x.jpg", relPath := "x.jpg",
    kind := Kind.photo, present := true, missingSince := none,
    sizeBytes := 1, mtime := 1, lastSeenAt := 5, thumbPath := none,
    updatedAt := 5 }

/-- A store holding library 1 with no roots and the stale item `itC`. -/
def stC : Store :=
  { libraries := [{ id := 1, roots := [] }], items := [itC], jobs := [],
    runs := [], nextItemId := 6, nextJobId := 1, nextRunId := 1 }

/-- Clock for the scan over `stC`: starts at 10, reconciles at 20. -/
def tW : ScanTimes := { startedAt := 10, reconcileAt := 20, finishedAt := 21 }

/-- An item whose file is gone although the catalog says present. -/
def itS : MediaItem :=
  { id := 1, libraryId := 1, path := "/gone.mp4", relPath := "gone.mp4",
    kind := Kind.video, present := true, missingSince := none,
    sizeBytes := 9, mtime := 9, lastSeenAt := 100, thumbPath := none,
    updatedAt := 100 }

/-- A store holding just `itS`. -/
def stS : Store :=
  { libraries := [], items := [itS], jobs := [], runs := [],
    nextItemId := 2, nextJobId := 1, nextRunId := 1 }

/-- Filesystem on which every open fails. -/
def fsGone : String → OpenResult := fun _ => OpenResult.openErr

/-- A photo item awaiting its thumbnail. -/
def itemW : MediaItem :=
  { id := 7, libraryId := 1, path := "/m/x.jpg", relPath := "x.jpg",
    kind := Kind.photo, present := true, missingSince := none,
    sizeBytes := 10, mtime := 5, lastSeenAt := 100, thumbPath := none,
    updatedAt := 100 }

/-- A fresh, unlocked thumb job for `itemW`. -/
def jW : Job :=
  { id := 3, kind := JobKind.thumb, itemId := 7, runAt := 100, attempts := 0,
    lockedAt := none, lastError := none }

/-- A store holding just `itemW` and its queued thumb job. -/
def stW : Store :=
  { libraries := [], items := [itemW], jobs := [jW], runs := [],
    nextItemId := 8, nextJobId := 4, nextRunId := 1 }

/-! Claim theorems. -/

/-- C10: file-kind classification lowercases the extension, strips the leading
dot, and tests the photo set, then the audio set, then the video set, in that
order (so the earliest matching set wins); an extension in none of the sets is
classified `other` exactly when the index-other flag is enabled and not
classified at all otherwise. -/
theorem kindForExt_order :
    ∀ (cfg : Config) (ext : String),
      (trimLead (lowerStr ext) "." ∈ cfg.extPhoto →
        kindForExt cfg ext = some Kind.photo) ∧
      (trimLead (lowerStr ext) "." ∉ cfg.extPhoto →
        trimLead (lowerStr ext) "." ∈ cfg.extAudio →
        kindForExt cfg ext = some Kind.audio) ∧
      (trimLead (lowerStr ext) "." ∉ cfg.extPhoto →
        trimLead (lowerStr ext) "." ∉ cfg.extAudio →
        trimLead (lowerStr ext) "." ∈ cfg.extVideo →
        kindForExt cfg ext = some Kind.video) ∧
      (trimLead (lowerStr ext) "." ∉ cfg.extPhoto →
        trimLead (lowerStr ext) "." ∉ cfg.extAudio →
        trimLead (lowerStr ext) "." ∉ cfg.extVideo →
        kindForExt cfg ext = if cfg.indexOther then some Kind.other else none) := by
  intro cfg ext
  refine ⟨?_, ?_, ?_, ?_⟩ <;> intros <;> simp [kindForExt, *]

/-- Witness for C10: on the overlapping configuration the photo set wins, and
an unknown extension falls through to the index-other flag. -/
theorem kindForExt_order_witness :
    kindForExt cfgOverlap ".X" = some Kind.photo ∧
    kindForExt cfgD "zzz" = (if cfgD.indexOther then some Kind.other else none) := by
  constructor
  · exact (kindForExt_order cfgOverlap ".X").1 (by decide)
  · exact (kindForExt_order cfgD "zzz").2.2.2 (by decide) (by decide) (by decide)

/-- C9: the video thumbnail seek offset equals clamp(0.10*d, 5, 120) unless
that clamped value exceeds the duration d, in which case it equals 0.25*d;
the probed duration defaults to 30 when the probe fails or its output cannot
be parsed. -/
theorem video_seek_formula :
    (∀ d : ℚ, videoSeekTime d = seekTimeSpec d) ∧
    getVideoDuration ProbeResult.execErr = 30 ∧
    getVideoDuration ProbeResult.parseErr = 30 ∧
    (∀ q : ℚ, getVideoDuration (ProbeResult.value q) = q) := by
  refine ⟨?_, rfl, rfl, fun q => rfl⟩
  intro d
  simp only [videoSeekTime, seekTimeSpec]
  by_cases h1 : d * (10 / 100 : ℚ) < 5
  · rw [if_pos h1, max_eq_left h1.le,
        min_eq_right (by norm_num : (5 : ℚ) ≤ 120),
        if_neg (by norm_num : ¬ (5 : ℚ) > 120)]
  · rw [if_neg h1, max_eq_right (not_lt.mp h1)]
    by_cases h2 : d * (10 / 100 : ℚ) > 120
    · rw [if_pos h2, min_eq_left h2.le]
    · rw [if_neg h2, min_eq_right (not_lt.mp h2)]

/-- C8: ScanLibrary fails exactly when the library id is absent from the
store, and otherwise returns the completed scan; per-entry walk errors and
stat failures are skipped without affecting the store. -/
theorem scanLibrary_error_contract :
    ∀ (cfg : Config) (fs : String → List WalkEntry) (t : ScanTimes)
      (st : Store) (libID : Nat),
      (st.libraries.find? (fun l => l.id == libID) = none →
        ∃ msg, scanLibrary cfg fs t st libID = Except.error msg) ∧
      (∀ lib, st.libraries.find? (fun l => l.id == libID) = some lib →
        scanLibrary cfg fs t st libID =
          Except.ok (scanCore cfg fs t st libID lib.roots)) ∧
      (∀ (st2 : Store) (root : String) (startedAt : Nat) (e : WalkEntry),
        e.walkErr = true → walkStep cfg st2 libID root startedAt e = st2) ∧
      (∀ (st2 : Store) (root : String) (startedAt : Nat) (e : WalkEntry),
        e.infoErr = true → walkStep cfg st2 libID root startedAt e = st2) := by
  intro cfg fs t st libID
  refine ⟨fun h => ⟨"library not found", by simp [scanLibrary, h]⟩,
          fun lib h => by simp [scanLibrary, h], ?_, ?_⟩
  · intro st2 root startedAt e he
    simp [walkStep, he]
  · intro st2 root startedAt e he
    unfold walkStep
    by_cases hw : e.walkErr
    · simp [hw]
    · by_cases hd : e.isDir
      · simp [hw, hd]
      · cases hk : kindForExt cfg (pathExt e.path) with
        | none => simp [hw, hd, hk]
        | some k => simp [hw, hd, hk, he]

/-- Witness for C8: scanning a missing library id errs; scanning the existing
library succeeds. -/
theorem scanLibrary_error_contract_witness :
    (∃ msg, scanLibrary cfgD fsNone t1 st0 99 = Except.error msg) ∧
    scanLibrary cfgD fsBoth t1 st0 1 =
      Except.ok (scanCore cfgD fsBoth t1 st0 1 ["/m"]) := by
  constructor
  · exact (scanLibrary_error_contract cfgD fsNone t1 st0 99).1 (by decide)
  · exact (scanLibrary_error_contract cfgD fsBoth t1 st0 1).2.1
      { id := 1, roots := ["/m"] } (by decide)

/-- C4: the insert path of the upsert enqueues exactly one thumb job for a new
photo or video item, and the update path enqueues exactly one metadata and one
thumb job with no condition on whether any stored field changed. -/
theorem upsert_job_policy :
    ∀ (st : Store) (libID : Nat) (e : WalkEntry) (kind : Kind) (rel : String)
      (startedAt : Nat),
      (st.items.find? (fun it => it.path == e.path) = none →
        kind = Kind.photo ∨ kind = Kind.video →
        (upsertAndSchedule st libID e kind rel startedAt).jobs =
          st.jobs ++ [mkJob st.nextJobId JobKind.thumb st.nextItemId e.jobNow]) ∧
      (∀ ex, st.items.find? (fun it => it.path == e.path) = some ex →
        (upsertAndSchedule st libID e kind rel startedAt).jobs =
          st.jobs ++ [mkJob st.nextJobId JobKind.metadata ex.id e.jobNow,
                      mkJob (st.nextJobId + 1) JobKind.thumb ex.id e.jobNow]) := by
  intro st libID e kind rel startedAt
  constructor
  · intro hnone hk
    rcases hk with h | h <;> simp [upsertAndSchedule, hnone, h]
  · intro ex hex
    simp [upsertAndSchedule, hex]

/-- Witness for C4: inserting the photo file enqueues its thumb job; re-seeing
it on the second scan takes the update path and enqueues metadata plus thumb. -/
theorem upsert_job_policy_witness :
    (upsertAndSchedule st0 1 entryA Kind.photo "a.jpg" 100).jobs =
      st0.jobs ++ [mkJob st0.nextJobId JobKind.thumb st0.nextItemId entryA.jobNow] ∧
    (upsertAndSchedule stR1 1 entryA Kind.photo "a.jpg" 200).jobs =
      stR1.jobs ++ [mkJob stR1.nextJobId JobKind.metadata itA.id entryA.jobNow,
                    mkJob (stR1.nextJobId + 1) JobKind.thumb itA.id entryA.jobNow] := by
  constructor
  · exact (upsert_job_policy st0 1 entryA Kind.photo "a.jpg" 100).1 (by decide)
      (Or.inl rfl)
  · exact (upsert_job_policy stR1 1 entryA Kind.photo "a.jpg" 200).2 itA (by decide)

/-- Counterexample to C3 as stated: after the second scan of the unchanged
filesystem, the audio item (id 2, /m/b.mp3) has a thumb job in the queue —
the update path enqueued it — although the first scan enqueued none for it. -/
theorem audio_thumb_on_update_cex :
    (stR1.jobs.filter (fun q => q.itemId == 2)).length = 0 ∧
    (stR2.jobs.filter (fun q => q.kind == JobKind.thumb && q.itemId == 2)).length = 1 ∧
    (stR2.items.filter (fun it =>
      it.id == 2 && it.kind == Kind.audio && it.path == "/m/b.mp3")).length = 1 := by
  exact ⟨by decide, by decide, by decide⟩

/-- C3 amended: an audio- or other-kind file never gets a thumb job on the
insert path of the upsert, but the update path enqueues metadata and thumb
jobs regardless of kind — including audio and other. -/
theorem thumb_kind_gating_amended :
    ∀ (st : Store) (libID : Nat) (e : WalkEntry) (kind : Kind) (rel : String)
      (startedAt : Nat),
      (kind = Kind.audio ∨ kind = Kind.other) →
      (st.items.find? (fun it => it.path == e.path) = none →
        (upsertAndSchedule st libID e kind rel startedAt).jobs = st.jobs) ∧
      (∀ ex, st.items.find? (fun it => it.path == e.path) = some ex →
        (upsertAndSchedule st libID e kind rel startedAt).jobs =
          st.jobs ++ [mkJob st.nextJobId JobKind.metadata ex.id e.jobNow,
                      mkJob (st.nextJobId + 1) JobKind.thumb ex.id e.jobNow]) := by
  intro st libID e kind rel startedAt hk
  constructor
  · intro hnone
    rcases hk with h | h <;> simp [upsertAndSchedule, hnone, h]
  · intro ex hex
    simp [upsertAndSchedule, hex]

/-- Witness for the amended C3: inserting the audio file enqueues nothing. -/
theorem thumb_kind_gating_amended_witness :
    (upsertAndSchedule st0 1 entryB Kind.audio "b.mp3" 100).jobs = st0.jobs := by
  exact (thumb_kind_gating_amended st0 1 entryB Kind.audio "b.mp3" 100
    (Or.inl rfl)).1 (by decide)

/-- C5 (code bug): two ScanLibrary runs over the same photo file leave two
`thumb` job rows for the same item in the queue — the job table has no unique
constraint on (kind, item_id), so the inserts' `on conflict do nothing` never
fires and the duplicate enqueue is not a no-op. -/
theorem job_duplicate_rows_bug :
    1 < (stR2.jobs.filter (fun q => q.kind == JobKind.thumb && q.itemId == 1)).length ∧
    (stR2.jobs.filter (fun q => q.kind == JobKind.thumb && q.itemId == 1)).length = 2 := by
  exact ⟨by decide, by decide⟩

/-- Counterexample to C1 as stated: the photo item qualified for
reconciliation in the second run (library 1, last seen 100 < 200, present,
missing_since null), and after that run it is absent — but its missing_since
is 210, the clock reading of the reconciliation UPDATE taken after the walk,
not the run's start time 200. -/
theorem reconcile_time_not_start_cex :
    t2.startedAt = 200 ∧
    (stR1.items.find? (fun it => it.path == "/m/a.jpg")).map
      (fun it => (it.libraryId, it.lastSeenAt, it.present, it.missingSince)) =
      some (1, 100, true, none) ∧
    (stM2.items.find? (fun it => it.path == "/m/a.jpg")).map
      (fun it => (it.present, it.missingSince)) = some (false, some 210) ∧
    ¬ ((stM2.items.find? (fun it => it.path == "/m/a.jpg")).map
        (fun it => it.missingSince) = some (some t2.startedAt)) := by
  exact ⟨rfl, by decide, by decide, by decide⟩

/-- C1 amended: after ScanLibrary completes, every item of the library that
entered reconciliation (post-walk state) still present with last_seen_at older
than the run's start has present=false in the final store, and its
missing_since is the reconciliation timestamp — the clock reading taken after
the walk, not the run's start time — when it was previously null, and is kept
unchanged otherwise. -/
theorem scan_reconcile_marks_missing :
    ∀ (cfg : Config) (fs : String → List WalkEntry) (t : ScanTimes) (st : Store)
      (libID : Nat) (lib : Library) (st' : Store),
      st.libraries.find? (fun l => l.id == libID) = some lib →
      scanLibrary cfg fs t st libID = Except.ok st' →
      ∀ it ∈ (walkPhase cfg fs (recordRun st libID t.startedAt) libID
                t.startedAt lib.roots).items,
        it.libraryId = libID → it.lastSeenAt < t.startedAt → it.present = true →
        reconcileItem libID t.reconcileAt t.startedAt it ∈ st'.items ∧
        (reconcileItem libID t.reconcileAt t.startedAt it).present = false ∧
        (reconcileItem libID t.reconcileAt t.startedAt it).missingSince =
          some (it.missingSince.getD t.reconcileAt) := by
  intro cfg fs t st libID lib st' hfind hscan it hmem hlib hseen hpres
  have hst' : st' = scanCore cfg fs t st libID lib.roots := by
    have h := hscan
    simp only [scanLibrary, hfind] at h
    exact (Except.ok.injEq _ _).mp h |>.symm
  subst hst'
  refine ⟨?_, ?_, ?_⟩
  · simp only [scanCore, finishRun, reconcile]
    exact List.mem_map_of_mem _ hmem
  · simp [reconcileItem, hlib, hseen, hpres]
  · simp [reconcileItem, hlib, hseen, hpres]

/-- Witness for the amended C1: running the scan over `stC` (library 1, no
roots) flips the stale item absent with missing_since 20, the reconciliation
clock. -/
theorem scan_reconcile_marks_missing_witness :
    reconcileItem 1 20 10 itC ∈ (runScan cfgD fsNone tW stC 1).items ∧
    (reconcileItem 1 20 10 itC).present = false ∧
    (reconcileItem 1 20 10 itC).missingSince = some (itC.missingSince.getD 20) := by
  exact scan_reconcile_marks_missing cfgD fsNone tW stC 1 { id := 1, roots := [] }
    (runScan cfgD fsNone tW stC 1) (by decide) rfl itC (by decide)
    rfl (by decide) rfl

/-- C7: StreamByID returns not-found and leaves the catalog unchanged for a
missing id or an absent row; when the row is present but the open fails it
returns not-found and, as a side effect, marks exactly that row absent,
filling missing_since with the current time only when it was null. -/
theorem stream_self_heal :
    ∀ (fs : String → OpenResult) (st : Store) (now : Nat) (id : Nat),
      (st.items.find? (fun it => it.id == id) = none →
        streamByID fs st now id = (StreamOutcome.notFound, st)) ∧
      (∀ it, st.items.find? (fun it => it.id == id) = some it →
        it.present = false →
        streamByID fs st now id = (StreamOutcome.notFound, st)) ∧
      (∀ it, st.items.find? (fun it => it.id == id) = some it →
        it.present = true → fs it.path = OpenResult.openErr →
        streamByID fs st now id =
          (StreamOutcome.notFound,
           { st with items := st.items.map (fun x =>
               if x.id == id then markMissing now x else x) })) ∧
      (∀ x : MediaItem, (markMissing now x).present = false ∧
        (markMissing now x).missingSince = some (x.missingSince.getD now)) := by
  intro fs st now id
  refine ⟨fun h => by simp [streamByID, h], ?_, ?_, fun x => ⟨rfl, rfl⟩⟩
  · intro it hit hpres
    simp [streamByID, hit, hpres]
  · intro it hit hpres hfs
    simp [streamByID, hit, hpres, hfs]

/-- Witness for C7: streaming the present-but-deleted item 1 of `stS` yields
not-found and the healed store. -/
theorem stream_self_heal_witness :
    streamByID fsGone stS 99 1 =
      (StreamOutcome.notFound,
       { stS with items := stS.items.map (fun x =>
           if x.id == 1 then markMissing 99 x else x) }) := by
  exact (stream_self_heal fsGone stS 99 1).2.2.1 itS (by decide) rfl rfl

/-! Helper lemmas for the first-miss invariant (claim C2). -/

theorem itemsInv_map {l : List MediaItem} {f : MediaItem → MediaItem}
    (h : ∀ x ∈ l, (f x).present = false → (f x).missingSince ≠ none) :
    itemsInv (l.map f) := by
  intro it hit hpres
  rcases List.mem_map.mp hit with ⟨x, hx, rfl⟩
  exact h x hx hpres

theorem itemsInv_upsert (st : Store) (libID : Nat) (e : WalkEntry) (kind : Kind)
    (rel : String) (startedAt : Nat) (h : itemsInv st.items) :
    itemsInv (upsertAndSchedule st libID e kind rel startedAt).items := by
  unfold upsertAndSchedule
  cases hf : st.items.find? (fun it => it.path == e.path) with
  | some ex =>
    apply itemsInv_map
    intro x hx hpres
    by_cases hp : x.path == e.path
    · simp [hp] at hpres
    · simp [hp] at hpres ⊢
      exact h x hx hpres
  | none =>
    by_cases hkind : kind = Kind.video ∨ kind = Kind.photo
    all_goals
      simp only [hkind, if_true, if_false, ite_true, ite_false, if_pos, if_neg]
    all_goals
      intro it hit hpres
    all_goals
      rcases List.mem_append.mp hit with h1 | h1
    · exact h it h1 hpres
    · rcases List.mem_singleton.mp h1 with rfl
      simp at hpres
    · exact h it h1 hpres
    · rcases List.mem_singleton.mp h1 with rfl
      simp at hpres

theorem itemsInv_walkStep (cfg : Config) (st : Store) (libID : Nat)
    (root : String) (startedAt : Nat) (e : WalkEntry) (h : itemsInv st.items) :
    itemsInv (walkStep cfg st libID root startedAt e).items := by
  unfold walkStep
  by_cases hw : e.walkErr
  · simp only [hw, if_true]; exact h
  · by_cases hd : e.isDir
    · simp [hw, hd]; exact h
    · cases hk : kindForExt cfg (pathExt e.path) with
      | none => simp [hw, hd]; exact h
      | some k =>
        by_cases hi : e.infoErr
        · simp [hw, hd, hi]; exact h
        · simp only [hw, hd, hi, Bool.false_eq_true, if_false, if_neg]
          exact itemsInv_upsert _ _ _ _ _ _ h

theorem itemsInv_foldl {α : Type} (f : Store → α → Store)
    (hf : ∀ (st : Store) (a : α), itemsInv st.items → itemsInv (f st a).items) :
    ∀ (l : List α) (st : Store), itemsInv st.items → itemsInv ((l.foldl f st).items) := by
  intro l
  induction l with
  | nil => intro st h; simpa using h
  | cons a l ih => intro st h; exact ih (f st a) (hf st a h)

theorem itemsInv_reconcile (libID now startedAt : Nat) (l : List MediaItem)
    (h : itemsInv l) : itemsInv (reconcile libID now startedAt l) := by
  apply itemsInv_map
  intro x hx hpres
  unfold reconcileItem at hpres ⊢
  by_cases hc : x.libraryId = libID ∧ x.lastSeenAt < startedAt ∧ x.present = true
  · simp [hc]
  · simp only [hc, if_neg, ite_false] at hpres ⊢
    exact h x hx hpres

theorem storeInv_runScan (cfg : Config) (fs : String → List WalkEntry)
    (t : ScanTimes) (st : Store) (libID : Nat) (h : storeInv st) :
    storeInv (runScan cfg fs t st libID) := by
  unfold runScan scanLibrary
  cases hf : st.libraries.find? (fun l => l.id == libID) with
  | none => exact h
  | some lib =>
    show storeInv (scanCore cfg fs t st libID lib.roots)
    unfold storeInv scanCore finishRun
    apply itemsInv_reconcile
    unfold walkPhase
    apply itemsInv_foldl
    · intro st1 root h1
      unfold walkRoot
      apply itemsInv_foldl
      · intro st2 e h2
        exact itemsInv_walkStep cfg st2 libID root t.startedAt e h2
      · exact h1
    · exact h

theorem storeInv_stream (fs : String → OpenResult) (st : Store) (now id : Nat)
    (h : storeInv st) : storeInv (streamByID fs st now id).2 := by
  unfold streamByID
  cases hf : st.items.find? (fun it => it.id == id) with
  | none => exact h
  | some it =>
    by_cases hp : it.present = false
    · simp only [hp, ite_true, if_pos]; exact h
    · simp only [hp, ite_false, if_neg]
      cases hfs : fs it.path with
      | openErr =>
        apply itemsInv_map
        intro x hx hpres
        by_cases hid : x.id == id
        · simp [hid, markMissing]
        · simp [hid] at hpres ⊢
          exact h x hx hpres
      | statErr => exact h
      | okFile s m => exact h

theorem storeInv_processJob (cfg : Config) (st : Store) (jobId : Nat)
    (outcome : Option String) (now : Nat) (h : storeInv st) :
    storeInv (processJob cfg st jobId outcome now) := by
  unfold processJob
  cases hf : st.jobs.find? (fun q =>
      decide (q.id = jobId ∧ q.kind = JobKind.thumb ∧ q.lockedAt = none)) with
  | none => exact h
  | some j =>
    cases outcome with
    | some errMsg =>
      by_cases hc : maxThumbAttempts ≤ j.attempts + 1
      · simp only [hc, ite_true, if_pos]; exact h
      · simp only [hc, ite_false, if_neg]; exact h
    | none =>
      apply itemsInv_map
      intro x hx hpres
      by_cases hid : x.id == j.itemId
      · simp [hid] at hpres ⊢
        exact h x hx hpres
      · simp [hid] at hpres ⊢
        exact h x hx hpres

theorem storeInv_applyOp (st : Store) (op : Op) (h : storeInv st) :
    storeInv (applyOp st op) := by
  cases op with
  | scan cfg fs t libID => exact storeInv_runScan cfg fs t st libID h
  | stream fs now id => exact storeInv_stream fs st now id h
  | work cfg jobId outcome now => exact storeInv_processJob cfg st jobId outcome now h

/-- C2: the first-miss invariant (absent implies a recorded missing_since)
is preserved by every operation and every sequence of operations; a later
miss — by reconciliation or by the streaming self-heal — never changes an
already-set missing_since; and any upsert that re-observes a path leaves the
matching rows present with missing_since cleared. -/
theorem missing_since_protocol :
    (∀ (st : Store) (op : Op), storeInv st → storeInv (applyOp st op)) ∧
    (∀ (st : Store) (ops : List Op), storeInv st → storeInv (ops.foldl applyOp st)) ∧
    (∀ (libID now startedAt : Nat) (it : MediaItem) (t0 : Nat),
      it.missingSince = some t0 →
      (reconcileItem libID now startedAt it).missingSince = some t0) ∧
    (∀ (now : Nat) (it : MediaItem) (t0 : Nat),
      it.missingSince = some t0 → (markMissing now it).missingSince = some t0) ∧
    (∀ (st : Store) (libID : Nat) (e : WalkEntry) (kind : Kind) (rel : String)
      (startedAt : Nat) (it' : MediaItem),
      it' ∈ (upsertAndSchedule st libID e kind rel startedAt).items →
      it'.path = e.path → it'.present = true ∧ it'.missingSince = none) := by
  refine ⟨fun st op h => storeInv_applyOp st op h, ?_, ?_, ?_, ?_⟩
  · intro st ops
    induction ops generalizing st with
    | nil => intro h; simpa using h
    | cons op ops ih => intro h; exact ih (applyOp st op) (storeInv_applyOp st op h)
  · intro libID now startedAt it t0 h0
    unfold reconcileItem
    by_cases hc : it.libraryId = libID ∧ it.lastSeenAt < startedAt ∧ it.present = true
    · simp [hc, h0]
    · simp [hc, h0]
  · intro now it t0 h0
    simp [markMissing, h0]
  · intro st libID e kind rel startedAt it' hmem hpath
    unfold upsertAndSchedule at hmem
    cases hf : st.items.find? (fun it => it.path == e.path) with
    | some ex =>
      rw [hf] at hmem
      simp only [Store.items] at hmem
      rcases List.mem_map.mp hmem with ⟨x, hx, rfl⟩
      by_cases hp : x.path == e.path
      · simp [hp]
      · simp only [hp, ite_false, if_neg] at hpath ⊢
        exact absurd (by simpa using hpath) (by simpa using hp)
    | none =>
      rw [hf] at hmem
      have hall := List.find?_eq_none.mp hf
      by_cases hkind : kind = Kind.video ∨ kind = Kind.photo
      all_goals
        simp only [hkind, ite_true, ite_false, if_pos, if_neg, Store.items] at hmem
      all_goals
        rcases List.mem_append.mp hmem with h1 | h1
      · exact absurd (by simpa using hpath) (by simpa using hall it' h1)
      · rcases List.mem_singleton.mp h1 with rfl
        exact ⟨rfl, rfl⟩
      · exact absurd (by simpa using hpath) (by simpa using hall it' h1)
      · rcases List.mem_singleton.mp h1 with rfl
        exact ⟨rfl, rfl⟩

/-- Witness for C2: the invariant holds on `stS` and is preserved by the
streaming self-heal that marks its item missing. -/
theorem missing_since_protocol_witness :
    storeInv (applyOp stS (Op.stream fsGone 99 1)) := by
  exact missing_since_protocol.1 stS (Op.stream fsGone 99 1) (by decide)

/-- Iterating a failing generation below the ceiling keeps the single job row
queued and unlocked, with the attempt count equal to the number of failures
and the last error recorded, and leaves the item table untouched. -/
theorem failTimes_below (cfg : Config) (st : Store)
    (jid jitem jrun : Nat) (jerr : Option String) (err : String) (now : Nat)
    (hjobs : st.jobs = [{ id := jid, kind := JobKind.thumb, itemId := jitem,
                          runAt := jrun, attempts := 0, lockedAt := none,
                          lastError := jerr }]) :
    ∀ k, k ≤ 4 →
      (failTimes cfg st jid err now k).items = st.items ∧
      (failTimes cfg st jid err now k).jobs =
        [{ id := jid, kind := JobKind.thumb, itemId := jitem, runAt := jrun,
           attempts := k, lockedAt := none,
           lastError := if k = 0 then jerr else some err }] := by
  intro k
  induction k with
  | zero =>
    intro _
    exact ⟨rfl, by simp [failTimes, hjobs]⟩
  | succ k ih =>
    intro hk
    obtain ⟨hitems, hjobsk⟩ := ih (Nat.le_of_succ_le hk)
    have hnot : ¬ (maxThumbAttempts ≤ k + 1) := by
      unfold maxThumbAttempts
      omega
    constructor
    · show (processJob cfg (failTimes cfg st jid err now k) jid (some err) now).items = st.items
      simp [processJob, hjobsk, List.find?, hnot]
      exact hitems
    · show (processJob cfg (failTimes cfg st jid err now k) jid (some err) now).jobs = _
      simp [processJob, hjobsk, List.find?, hnot]

/-- C6: with the (single) job row queued and unlocked, a failing generation
below the ceiling increments the attempt count, releases the lock, records
the error and keeps the row; a failure whose incremented count reaches 5
deletes the row; hence five straight failures empty the queue, and at most
four failures followed by a success empty the queue with the item's
thumb_path populated. -/
theorem thumb_retry_policy :
    ∀ (cfg : Config) (st : Store) (j : Job) (err : String) (now : Nat),
      st.jobs = [j] → j.kind = JobKind.thumb → j.lockedAt = none →
      (j.attempts + 1 < maxThumbAttempts →
        (processJob cfg st j.id (some err) now).jobs =
          [{ j with lockedAt := none, attempts := j.attempts + 1,
                    lastError := some err }]) ∧
      (maxThumbAttempts ≤ j.attempts + 1 →
        (processJob cfg st j.id (some err) now).jobs = []) ∧
      (j.attempts = 0 → (failTimes cfg st j.id err now 5).jobs = []) ∧
      (∀ k, j.attempts = 0 → k ≤ 4 →
        (processJob cfg (failTimes cfg st j.id err now k) j.id none now).jobs = [] ∧
        (processJob cfg (failTimes cfg st j.id err now k) j.id none now).items =
          st.items.map (fun it =>
            if it.id == j.itemId then
              { it with thumbPath := some (thumbPathFor cfg j.itemId) }
            else it)) := by
  intro cfg st j err now hjobs hkind hlock
  obtain ⟨jid, jkind, jitem, jrun, jatt, jlk, jerr⟩ := j
  dsimp only at hjobs hkind hlock ⊢
  subst hkind
  subst hlock
  refine ⟨?_, ?_, ?_, ?_⟩
  · intro hlow
    simp [processJob, hjobs, List.find?, not_le.mpr hlow]
  · intro hhigh
    simp [processJob, hjobs, List.find?, hhigh]
  · intro hatt0
    subst hatt0
    obtain ⟨hi4, hj4⟩ :=
      failTimes_below cfg st jid jitem jrun jerr err now hjobs 4 (by norm_num)
    show (processJob cfg (failTimes cfg st jid err now 4) jid (some err) now).jobs = []
    simp [processJob, hj4, List.find?, maxThumbAttempts]
  · intro k hatt0 hk
    subst hatt0
    obtain ⟨hik, hjk⟩ :=
      failTimes_below cfg st jid jitem jrun jerr err now hjobs k hk
    constructor
    · simp [processJob, hjk, List.find?]
    · simp [processJob, hjk, hik, List.find?]

/-- Witness for C6 on `stW`: five failures delete the job; two failures then a
success delete the job and set the thumbnail path on item 7. -/
theorem thumb_retry_policy_witness :
    (failTimes cfgD stW 3 "boom" 50 5).jobs = [] ∧
    (processJob cfgD (failTimes cfgD stW 3 "boom" 50 2) 3 none 50).jobs = [] ∧
    (processJob cfgD (failTimes cfgD stW 3 "boom" 50 2) 3 none 50).items =
      stW.items.map (fun it =>
        if it.id == 7 then
          { it with thumbPath := some (thumbPathFor cfgD 7) }
        else it) := by
  have h := thumb_retry_policy cfgD stW jW "boom" 50 rfl rfl rfl
  exact ⟨h.2.2.1 rfl, (h.2.2.2 2 rfl (by norm_num)).1, (h.2.2.2 2 rfl (by norm_num)).2⟩

end MediaHub
